import Mathlib

/-!
Verification of the vide-component-facsimile navigation and layout engine.

The definitions below are a shallow embedding of `src/vide-facs-router.js`
(class `VideFacsRouter`).  JavaScript numbers are modelled as rationals (all
arithmetic in the embedded fragments is exact on the inputs of interest),
`null`/`undefined` as `Option`, and the DOM-free computational core of each
method as a pure Lean function.  Comments on each definition name the method
and the behaviour being embedded.
-/

namespace VideFacs

/-- Crop rectangle `{x, y, w, h}` of a page inside the full scanned image,
in pixels (field `px.xywh` of a page record of `edition.json`). -/
structure Xywh where
  x : ℚ
  y : ℚ
  w : ℚ
  h : ℚ
deriving DecidableEq, Repr

/-- Pixel metadata of a page (field `px`): crop rectangle, clockwise rotation
in degrees, and the full image's pixel dimensions. -/
structure Px where
  xywh : Xywh
  rotation : ℚ
  width : ℚ
  height : ℚ
deriving DecidableEq, Repr

/-- Physical millimetre dimensions of the page content (field `mm`). -/
structure Mm where
  width : ℚ
  height : ℚ
deriving DecidableEq, Repr

/-- One page record of the edition.  The string field `position` of the JSON is
used by the router only through `position.includes('verso')`; we embed that
boolean test as the field `isVerso`.  The `target` URL string takes no part in
any geometric computation and is omitted from the geometry claims. -/
structure PageRec where
  px : Px
  mm : Mm
  isVerso : Bool
deriving DecidableEq, Repr

/-- The numeric placement handed to `viewer.addTiledImage`:
`{x, y, width, degrees}` in millimetre world space. -/
structure Placement where
  x : ℚ
  y : ℚ
  width : ℚ
  degrees : ℚ
deriving DecidableEq, Repr

/-- Embedding of `VideFacsRouter.calculatePagePosition` (vide-facs-router.js,
lines 417-484), step for step: scale factor from the crop width, full-image
width in mm, crop-centre coordinates in mm, verso/recto target anchor,
back-solved image origin, and negated rotation. -/
def calculatePagePosition (page : PageRec) : Placement :=
  let xywh := page.px.xywh
  let rotation := page.px.rotation
  let pxWidth := page.px.width
  let mmWidth := page.mm.width
  let mmHeight := page.mm.height
  let isVerso := page.isVerso
  let pageWidthPx := xywh.w
  let mmPerPx := mmWidth / pageWidthPx
  let fullImageWidthMm := pxWidth * mmPerPx
  let xywhCenterPxX := xywh.x + xywh.w / 2
  let xywhCenterPxY := xywh.y + xywh.h / 2
  let xywhCenterMmX := xywhCenterPxX * mmPerPx
  let xywhCenterMmY := xywhCenterPxY * mmPerPx
  let pageTargetX := if isVerso then -mmWidth else 0
  let pageTargetY : ℚ := 0
  let pageCenterX := pageTargetX + mmWidth / 2
  let pageCenterY := pageTargetY + mmHeight / 2
  let imageX := pageCenterX - xywhCenterMmX
  let imageY := pageCenterY - xywhCenterMmY
  { x := imageX, y := imageY, width := fullImageWidthMm, degrees := -rotation }

/-- The placement as the specification describes it (spec.md §4.2, steps 1-7),
written directly from the spec's formulas, to be compared with
`calculatePagePosition`. -/
def placePageSpec (page : PageRec) : Placement :=
  let mmPerPixel := page.mm.width / page.px.xywh.w
  let targetX := if page.isVerso then -page.mm.width else 0
  { x := targetX + page.mm.width / 2 - (page.px.xywh.x + page.px.xywh.w / 2) * mmPerPixel,
    y := page.mm.height / 2 - (page.px.xywh.y + page.px.xywh.h / 2) * mmPerPixel,
    width := page.px.width * mmPerPixel,
    degrees := -page.px.rotation }

/-- Embedding of `VideFacsRouter.calculateClipRect` (vide-facs-router.js, lines
381-410).  `hideCenter = false` and verso pages yield no clip (`null`); a recto
page with `hideCenter = true` is clipped from the crop's left edge to the full
image's right edge at full image height. -/
def calculateClipRect (page : PageRec) (hideCenter : Bool) : Option Xywh :=
  if !hideCenter then
    none
  else if page.isVerso then
    none
  else
    some { x := page.px.xywh.x
           y := 0
           w := page.px.width - page.px.xywh.x
           h := page.px.height }

/-- A sample recto page with a 2000x3000 crop at (100, 50) inside a 2400x3200
scan, physical size 220mm x 330mm, rotated 2 degrees. -/
def rectoSample : PageRec :=
  { px := { xywh := { x := 100, y := 50, w := 2000, h := 3000 },
            rotation := 2, width := 2400, height := 3200 },
    mm := { width := 220, height := 330 },
    isVerso := false }

/-- The same geometry as a verso page. -/
def versoSample : PageRec :=
  { px := { xywh := { x := 100, y := 50, w := 2000, h := 3000 },
            rotation := 2, width := 2400, height := 3200 },
    mm := { width := 220, height := 330 },
    isVerso := true }

/-- C1: for every page record with positive crop, pixel and physical
dimensions, `calculatePagePosition` returns exactly the placement prescribed
by the spec's algorithm (scale from crop width, verso anchor at
`-physical.width`, recto anchor at `0`, back-solved origin, negated
rotation). -/
theorem calculatePagePosition_eq_spec (page : PageRec)
    (hw : 0 < page.px.xywh.w) (hh : 0 < page.px.xywh.h)
    (hpw : 0 < page.px.width) (hph : 0 < page.px.height)
    (hmw : 0 < page.mm.width) (hmh : 0 < page.mm.height) :
    calculatePagePosition page = placePageSpec page := by
  cases hv : page.isVerso <;>
    simp only [calculatePagePosition, placePageSpec, hv, if_true, if_false,
      Bool.false_eq_true] <;>
    exact congrArg₂ (fun a b => Placement.mk a b _ _) (by ring) (by ring)

/-- C1 witness: the theorem applied to the concrete recto sample page. -/
theorem calculatePagePosition_eq_spec_witness :
    calculatePagePosition rectoSample = placePageSpec rectoSample :=
  calculatePagePosition_eq_spec rectoSample (by norm_num [rectoSample])
    (by norm_num [rectoSample]) (by norm_num [rectoSample])
    (by norm_num [rectoSample]) (by norm_num [rectoSample])
    (by norm_num [rectoSample])

/-- C3: `calculateClipRect` returns no clip when margin hiding is disabled,
no clip for verso pages even when it is enabled, and for a recto page with
hiding enabled exactly the rectangle from the crop's left edge to the full
image's right edge at full image height. -/
theorem calculateClipRect_policy (page : PageRec) :
    calculateClipRect page false = none ∧
    (page.isVerso = true → calculateClipRect page true = none) ∧
    (page.isVerso = false →
      calculateClipRect page true =
        some { x := page.px.xywh.x, y := 0,
               w := page.px.width - page.px.xywh.x, h := page.px.height }) := by
  refine ⟨rfl, fun hv => ?_, fun hv => ?_⟩ <;> simp [calculateClipRect, hv]

/-- C3 witness: the theorem applied to the concrete recto sample page,
discharging the recto hypothesis there. -/
theorem calculateClipRect_policy_witness :
    calculateClipRect rectoSample true =
      some { x := 100, y := 0, w := 2300, h := 3200 } := by
  have h := (calculateClipRect_policy rectoSample).2.2 rfl
  rw [h]
  norm_num [rectoSample]

/-! ### World bounds (`createViewer` lines 511-540 and `switchPages` lines 651-677) -/

/-- Aggregate extent `{minX, maxX, minY, maxY}` of a set of placed pages. -/
structure Bounds where
  minX : ℚ
  maxX : ℚ
  minY : ℚ
  maxY : ℚ
deriving DecidableEq, Repr

/-- The extent a single page contributes to the running min/max in
`createViewer`/`switchPages`: `x`, `x + width`, `y`, and
`y + width * (px.height / px.width)` (aspect-ratio height). -/
def pageBounds (page : PageRec) : Bounds :=
  let config := calculatePagePosition page
  { minX := config.x
    maxX := config.x + config.width
    minY := config.y
    maxY := config.y + config.width * (page.px.height / page.px.width) }

/-- One step of the running min/max over page extents. -/
def mergeBounds (a b : Bounds) : Bounds :=
  { minX := min a.minX b.minX
    maxX := max a.maxX b.maxX
    minY := min a.minY b.minY
    maxY := max a.maxY b.maxY }

/-- Running min/max over a list of pages starting from an accumulator. -/
def foldMerge (b : Bounds) (pages : List PageRec) : Bounds :=
  pages.foldl (fun acc p => mergeBounds acc (pageBounds p)) b

/-- The `pages.forEach` min/max loop of `createViewer`/`switchPages`.  The
source initialises the accumulator at `±Infinity`; over ℚ we model the
identity of min/max with an `Option` accumulator, which agrees with the
JavaScript fold on every list (the first page replaces the infinities). -/
def boundsFold (pages : List PageRec) : Option Bounds :=
  pages.foldl
    (fun acc p =>
      match acc with
      | none => some (pageBounds p)
      | some b => some (mergeBounds b (pageBounds p)))
    none

/-- Expansion of the combined extent by the fixed padding on all four sides
(`padding = 50` mm in the source). -/
def padBounds (pad : ℚ) (b : Bounds) : Bounds :=
  { minX := b.minX - pad, maxX := b.maxX + pad,
    minY := b.minY - pad, maxY := b.maxY + pad }

/-- World bounds computed by `createViewer`/`switchPages`: running min/max of
the per-page extents, then 50mm of padding on every side.  `none` only for an
empty page list (the source bails out earlier in that case). -/
def worldBounds (pages : List PageRec) : Option Bounds :=
  (boundsFold pages).map (padBounds 50)

/-- `outer` contains `inner` in all four directions. -/
def boundsContain (outer inner : Bounds) : Prop :=
  outer.minX ≤ inner.minX ∧ inner.maxX ≤ outer.maxX ∧
  outer.minY ≤ inner.minY ∧ inner.maxY ≤ outer.maxY

instance (outer inner : Bounds) : Decidable (boundsContain outer inner) := by
  unfold boundsContain; infer_instance

theorem boundsContain_refl (b : Bounds) : boundsContain b b :=
  ⟨le_refl _, le_refl _, le_refl _, le_refl _⟩

theorem boundsContain_trans {a b c : Bounds}
    (hab : boundsContain a b) (hbc : boundsContain b c) : boundsContain a c :=
  ⟨le_trans hab.1 hbc.1, le_trans hbc.2.1 hab.2.1,
   le_trans hab.2.2.1 hbc.2.2.1, le_trans hbc.2.2.2 hab.2.2.2⟩

theorem mergeBounds_contains_left (a b : Bounds) :
    boundsContain (mergeBounds a b) a :=
  ⟨min_le_left _ _, le_max_left _ _, min_le_left _ _, le_max_left _ _⟩

theorem mergeBounds_contains_right (a b : Bounds) :
    boundsContain (mergeBounds a b) b :=
  ⟨min_le_right _ _, le_max_right _ _, min_le_right _ _, le_max_right _ _⟩

theorem foldMerge_contains_init (pages : List PageRec) (b : Bounds) :
    boundsContain (foldMerge b pages) b := by
  induction pages generalizing b with
  | nil => exact boundsContain_refl b
  | cons p ps ih =>
      exact boundsContain_trans (ih (mergeBounds b (pageBounds p)))
        (mergeBounds_contains_left b (pageBounds p))

theorem foldMerge_contains_mem (pages : List PageRec) (b : Bounds)
    {q : PageRec} (hq : q ∈ pages) :
    boundsContain (foldMerge b pages) (pageBounds q) := by
  induction pages generalizing b with
  | nil => cases hq
  | cons p ps ih =>
      rcases List.mem_cons.mp hq with h | h
      · subst h
        exact boundsContain_trans
          (foldMerge_contains_init ps (mergeBounds b (pageBounds q)))
          (mergeBounds_contains_right b (pageBounds q))
      · exact ih _ h

theorem boundsFold_go (l : List PageRec) (b : Bounds) :
    l.foldl
      (fun acc p =>
        match acc with
        | none => some (pageBounds p)
        | some b' => some (mergeBounds b' (pageBounds p)))
      (some b)
    = some (foldMerge b l) := by
  induction l generalizing b with
  | nil => rfl
  | cons r rs ih => exact ih (mergeBounds b (pageBounds r))

theorem boundsFold_cons (p : PageRec) (ps : List PageRec) :
    boundsFold (p :: ps) = some (foldMerge (pageBounds p) ps) :=
  boundsFold_go ps (pageBounds p)

theorem padBounds_contains (pad : ℚ) (hpad : 0 ≤ pad) (b : Bounds) :
    boundsContain (padBounds pad b) b :=
  ⟨by simp [padBounds]; linarith, by simp [padBounds]; linarith,
   by simp [padBounds]; linarith, by simp [padBounds]; linarith⟩

/-- C2: for a non-empty list of pages, `worldBounds` is exactly the running
min/max of the per-page extents (`x`, `x+width`, `y`,
`y + width*(px.height/px.width)`) expanded by the fixed 50mm padding on all
four sides, and every page's full placed extent lies inside the padded
bounds. -/
theorem worldBounds_spec (p : PageRec) (ps : List PageRec) (q : PageRec)
    (hq : q ∈ p :: ps) :
    worldBounds (p :: ps) = some (padBounds 50 (foldMerge (pageBounds p) ps)) ∧
    ∀ wb, worldBounds (p :: ps) = some wb → boundsContain wb (pageBounds q) := by
  have heq : worldBounds (p :: ps)
      = some (padBounds 50 (foldMerge (pageBounds p) ps)) := by
    simp [worldBounds, boundsFold_cons]
  refine ⟨heq, fun wb hwb => ?_⟩
  rw [heq] at hwb
  cases hwb
  rcases List.mem_cons.mp hq with h | h
  · subst h
    exact boundsContain_trans (padBounds_contains 50 (by norm_num) _)
      (foldMerge_contains_init ps _)
  · exact boundsContain_trans (padBounds_contains 50 (by norm_num) _)
      (foldMerge_contains_mem ps _ h)

/-- C2 witness: the theorem applied to the concrete two-page spread
[versoSample, rectoSample], with the membership hypothesis discharged for the
recto page and the resulting bounds evaluated. -/
theorem worldBounds_spec_witness :
    worldBounds [versoSample, rectoSample]
      = some (padBounds 50 (foldMerge (pageBounds versoSample) [rectoSample])) ∧
    boundsContain (padBounds 50 (foldMerge (pageBounds versoSample) [rectoSample]))
      (pageBounds rectoSample) := by
  have h := worldBounds_spec versoSample [rectoSample] rectoSample
    (by simp)
  exact ⟨h.1, h.2 _ h.1⟩

/-! ### Route parsing and dispatch (`route`, lines 94-187, and
`loadManifestAndRender`, lines 210-270) -/

/-- Character-list core of JavaScript `String.prototype.startsWith`. -/
def charsStartWith : List Char → List Char → Bool
  | _, [] => true
  | [], _ :: _ => false
  | c :: cs, p :: ps => c == p && charsStartWith cs ps

/-- JavaScript `s.startsWith(marker)` (all markers here are ASCII). -/
def jsStartsWith (s marker : String) : Bool :=
  charsStartWith s.data marker.data

/-- JavaScript `s.substring(n)` for ASCII strings. -/
def jsDrop (s : String) (n : Nat) : String :=
  String.mk (s.data.drop n)

/-- Character-list core of JavaScript `String.prototype.split` with a
one-character separator: `"".split(c)` is `[""]`, separators at the edges
produce empty groups. -/
def splitChar (sep : Char) : List Char → List (List Char)
  | [] => [[]]
  | c :: rest =>
    let r := splitChar sep rest
    if c == sep then [] :: r
    else
      match r with
      | [] => [[c]]
      | g :: gs => (c :: g) :: gs

/-- JavaScript `s.split(sep)` for a one-character separator. -/
def jsSplit (sep : Char) (s : String) : List String :=
  (splitChar sep s.data).map String.mk

/-- JavaScript `s.includes(c)` for a single character. -/
def jsContainsChar (s : String) (c : Char) : Bool :=
  s.data.contains c

/-- JavaScript `parseInt(s, 10)`: skip leading whitespace, optional sign,
then the longest digit run; `NaN` (modelled `none`) when no digit follows. -/
def jsParseInt (s : String) : Option Int :=
  let cs := s.data.dropWhile Char.isWhitespace
  let signed : Int × List Char :=
    match cs with
    | '-' :: t => (-1, t)
    | '+' :: t => (1, t)
    | t => (1, t)
  let ds := signed.2.takeWhile Char.isDigit
  if ds.isEmpty then none
  else some (signed.1 * Int.ofNat (ds.foldl (fun a c => a * 10 + (c.toNat - 48)) 0))

/-- The router state consulted by `route`: the loaded manifest id
(`this.currentManifestId`, `undefined` before the first load), whether an
OpenSeadragon viewer instance is alive (`this.viewer`), and the current page
spec (`this.currentPageSpec`). -/
structure RouterState where
  currentManifestId : Option String
  viewerAlive : Bool
  currentPageSpec : Option String
deriving DecidableEq, Repr

/-- The dispatch decision `route` makes for a path.  `load` is a call of
`loadManifestAndRender` (which shows the loading view and fetches);
`zoneFilterUpdate` is the same-manifest same-page branch (updates the zone
highlight and the zones list, no viewer mutation); `switchTo` is the
same-manifest different-page branch (`switchPages`, no fetch). -/
inductive RouteAction where
  | redirect (path : String)
  | load (manifestId : String) (pageSpec zoneLabel : Option String)
      (zonePageIndex : Option Int)
  | zoneFilterUpdate (zoneLabel : Option String) (zonePageIndex : Option Int)
  | switchTo (pageSpec zoneLabel : Option String) (zonePageIndex : Option Int)
deriving DecidableEq, Repr

/-- Zone-spec decomposition inside `route` (lines 152-158):
`zoneSpec.split('.')` destructured into `[zonePageStr, zoneLabelStr]`, page
index via `parseInt` (`none` models `NaN`), label passed through unchanged
(`none` models `undefined` when there is no second component). -/
def parseZoneSpec (zs : String) : Option String × Option Int :=
  let parts := jsSplit '.' zs
  (parts.get? 1, jsParseInt (parts.headD ""))

/-- Embedding of `VideFacsRouter.route` on the segment list of a path
(`path.split('/').filter(s => s)`).  Filter application
(`applyFiltersFromUrl`) only toggles `restrictToCurrentPage` and is
orthogonal to the dispatch decision modelled here; marker scanning follows
the source loop (last `filter:`/`wz` segment wins, `filter:` checked
first). -/
def route (st : RouterState) (segments : List String) : RouteAction :=
  match segments with
  | [] => .redirect "/NK/"
  | [manifestId] => .load manifestId none none none
  | manifestId :: s1 :: rest =>
    let pageSpec : Option String :=
      if jsStartsWith s1 "p" then some (jsDrop s1 1) else none
    let zoneSpec : Option String :=
      rest.foldl
        (fun acc seg =>
          if jsStartsWith seg "filter:" then acc
          else if jsStartsWith seg "wz" then some (jsDrop seg 2)
          else acc)
        none
    let zl : Option String × Option Int :=
      match zoneSpec with
      | none => (none, none)
      | some zs => parseZoneSpec zs
    if st.currentManifestId = some manifestId ∧ st.viewerAlive = true then
      if st.currentPageSpec = pageSpec then
        .zoneFilterUpdate zl.1 zl.2
      else
        .switchTo pageSpec zl.1 zl.2
    else
      .load manifestId pageSpec zl.1 zl.2

/-- First step of `loadManifestAndRender`: the manifest registry
`editionUrls` contains only `NK`; an unknown id renders the 404 view without
any request, a known id proceeds to `fetch`. -/
inductive LoadOutcome where
  | notFound
  | fetch (url : String)
deriving DecidableEq, Repr

def loadManifestAction (manifestId : String) : LoadOutcome :=
  if manifestId = "NK" then .fetch "/temp/edition.json" else .notFound

/-- The active-zone test of `setupWritingZones` (line 1363):
`currentZoneLabel === zone.label && currentZonePageIndex === pageIndex`.
A `NaN` page index is modelled as `none`; in JavaScript `NaN === n` is false
for every `n`, matching `none ≠ some n`. -/
def zoneIsActive (currentZoneLabel : Option String)
    (currentZonePageIndex : Option Int) (label : String) (pageIndex : Int) :
    Bool :=
  currentZoneLabel == some label && currentZonePageIndex == some pageIndex

/-- C4 counterexample: with manifest `NK` already loaded and its viewer alive,
routing to the one-segment path `/NK/` calls `loadManifestAndRender` again,
whose known-id branch performs a fresh network fetch — there is no
per-manifestId cache, so a subsequent load of an already-loaded manifest does
not return a cached edition without a fetch. -/
theorem route_reload_refetches :
    route { currentManifestId := some "NK", viewerAlive := true,
            currentPageSpec := none } ["NK"]
      = RouteAction.load "NK" none none none ∧
    loadManifestAction "NK" = LoadOutcome.fetch "/temp/edition.json" :=
  ⟨rfl, rfl⟩

/-- C4 amended: the router avoids a re-fetch only when the new path has the
same manifest id, at least two segments, and the viewer is alive — then
`route` dispatches a zone/filter update or a page swap, never a
`loadManifestAndRender` call.  A one-segment path always dispatches
`loadManifestAndRender`, which always fetches for a known id. -/
theorem route_refetch_policy (cmi cps : Option String) (m s1 : String)
    (rest : List String) (hm : cmi = some m) :
    (∀ a b c d,
      route { currentManifestId := cmi, viewerAlive := true,
              currentPageSpec := cps } (m :: s1 :: rest)
        ≠ RouteAction.load a b c d) ∧
    route { currentManifestId := cmi, viewerAlive := true,
            currentPageSpec := cps } [m]
      = RouteAction.load m none none none := by
  subst hm
  refine ⟨fun a b c d h => ?_, rfl⟩
  simp only [route, eq_self_iff_true, and_self, if_true] at h
  split at h <;> split at h <;> exact RouteAction.noConfusion h

/-- C4 amended witness: the policy applied at the concrete state where `NK`
is loaded with a live viewer on page spec `2`. -/
theorem route_refetch_policy_witness :
    (∀ a b c d,
      route { currentManifestId := some "NK", viewerAlive := true,
              currentPageSpec := some "2" } ["NK", "p3"]
        ≠ RouteAction.load a b c d) ∧
    route { currentManifestId := some "NK", viewerAlive := true,
            currentPageSpec := some "2" } ["NK"]
      = RouteAction.load "NK" none none none :=
  route_refetch_policy (some "NK") (some "2") "NK" "p3" [] rfl

/-- C5 counterexample: the two-segment path `/NK/garbage/`, whose second
segment carries no page marker, is not routed to NotFound: `route` dispatches
`loadManifestAndRender('NK', null, ...)`, which fetches and renders the first
page. -/
theorem route_garbage_not_notFound :
    route { currentManifestId := none, viewerAlive := false,
            currentPageSpec := none } ["NK", "garbage"]
      = RouteAction.load "NK" none none none ∧
    loadManifestAction "NK" = LoadOutcome.fetch "/temp/edition.json" := by
  constructor
  · rfl
  · rfl

/-- C5 amended: segment patterns outside the documented grammar do not yield
NotFound.  A second segment without the `p` marker produces a null page spec
(so the first page is shown by default), unrecognized trailing segments are
ignored, and the 404 view arises only from a manifest id missing from the
registry (`NK` is its only entry). -/
theorem route_unrecognized_defaults (cmi cps : Option String) (s : String)
    (hp : jsStartsWith s "p" = false) :
    route { currentManifestId := cmi, viewerAlive := false,
            currentPageSpec := cps } ["NK", s]
      = RouteAction.load "NK" none none none ∧
    loadManifestAction "NK" = LoadOutcome.fetch "/temp/edition.json" ∧
    ∀ m : String, m ≠ "NK" → loadManifestAction m = LoadOutcome.notFound := by
  refine ⟨?_, rfl, fun m hm => by simp [loadManifestAction, hm]⟩
  simp [route, hp]

/-- C5 amended witness: the amended statement at the concrete empty state and
segment `garbage`. -/
theorem route_unrecognized_defaults_witness :
    route { currentManifestId := none, viewerAlive := false,
            currentPageSpec := none } ["NK", "garbage"]
      = RouteAction.load "NK" none none none ∧
    loadManifestAction "XX" = LoadOutcome.notFound := by
  have h := route_unrecognized_defaults none none "garbage" (by decide)
  exact ⟨h.1, h.2.2 "XX" (by decide)⟩

/-- C6 counterexample: for the zone spec `x.5`, whose page part is not
numeric, `parseInt` yields `NaN` (modelled `none`) and `route` still
dispatches the zone update with that `NaN` page index — no decode error is
surfaced to any caller. -/
theorem zoneSpec_nan_not_surfaced :
    jsParseInt "x" = none ∧
    route { currentManifestId := some "NK", viewerAlive := true,
            currentPageSpec := some "2" } ["NK", "p2", "wzx.5"]
      = RouteAction.zoneFilterUpdate (some "5") none := by
  constructor
  · rfl
  · rfl

/-- C6 amended: zone-spec decomposition splits on `.` into
`(pageIndex, label)`; a non-numeric page part yields a `NaN` page index
(`none`) that is passed silently to `updateActiveZone` together with the
label, and a `NaN` current-zone page index matches no zone in the list, so
the highlight is a silent no-op rather than a surfaced error. -/
theorem parseZoneSpec_malformed (zs pageStr : String) (rest : List String)
    (hsplit : jsSplit '.' zs = pageStr :: rest)
    (hnan : jsParseInt pageStr = none) :
    parseZoneSpec zs = (rest.head?, none) ∧
    ∀ (czl : Option String) (lbl : String) (pidx : Int),
      zoneIsActive czl none lbl pidx = false := by
  constructor
  · cases rest <;> simp [parseZoneSpec, hsplit, hnan]
  · intro czl lbl pidx
    simp [zoneIsActive]

/-- C6 amended witness: the amended statement at the concrete zone spec
`x.5`. -/
theorem parseZoneSpec_malformed_witness :
    parseZoneSpec "x.5" = (some "5", none) ∧
    zoneIsActive (some "5") none "5" 2 = false := by
  have h := parseZoneSpec_malformed "x.5" "x" ["5"] (by decide) (by decide)
  exact ⟨h.1, h.2 (some "5") "5" 2⟩

/-! ### Page navigation (`setupPageNavigation`, lines 727-803, and
`parsePageSpec`, lines 321-341) -/

/-- The previous/next page specs computed by `setupPageNavigation` from the
current page indices and the total page count.  `none` models a `null` spec,
which disables the corresponding button.  An empty index list is the
JavaScript `currentPages[0] === undefined` case, where both comparisons are
false and both specs stay `null`. -/
def navSpecs (currentPages : List Int) (totalPages : Int) :
    Option String × Option String :=
  match currentPages with
  | [leftPage, rightPage] =>
    let prevPageSpec : Option String :=
      if leftPage > 2 then
        some (toString (leftPage - 2) ++ "-" ++ toString (leftPage - 1))
      else if leftPage = 2 then some "1"
      else none
    let nextPageSpec : Option String :=
      if rightPage < totalPages - 1 then
        some (toString (rightPage + 1) ++ "-" ++ toString (rightPage + 2))
      else if rightPage = totalPages - 1 then some (toString totalPages)
      else none
    (prevPageSpec, nextPageSpec)
  | page :: _ =>
    (if page > 1 then some (toString (page - 1)) else none,
     if page < totalPages then some (toString (page + 1)) else none)
  | [] => (none, none)

/-- C7: the previous/next specs are exactly the claimed case analysis — for a
pair `[L,R]`: previous `"(L-2)-(L-1)"` when `L>2`, `"1"` when `L=2`, none
otherwise; next `"(R+1)-(R+2)"` when `R<total-1`, `"total"` when `R=total-1`,
none otherwise; for a single `[P]`: previous `"P-1"` when `P>1`, next
`"P+1"` when `P<total`, none otherwise. -/
theorem navSpecs_cases (l r p total : Int) :
    navSpecs [l, r] total =
      ((if l > 2 then some (toString (l - 2) ++ "-" ++ toString (l - 1))
        else if l = 2 then some "1" else none),
       (if r < total - 1 then some (toString (r + 1) ++ "-" ++ toString (r + 2))
        else if r = total - 1 then some (toString total) else none)) ∧
    navSpecs [p] total =
      ((if p > 1 then some (toString (p - 1)) else none),
       (if p < total then some (toString (p + 1)) else none)) :=
  ⟨rfl, rfl⟩

/-- JavaScript array indexing `pages[i]`: `undefined` (`none`) out of
range. -/
def jsIndex {α : Type} (pages : List α) (i : Int) : Option α :=
  if 0 ≤ i then pages.get? i.toNat else none

/-- Embedding of `parsePageSpec` (lines 321-341) over an abstract page list.
`none` entries are JavaScript `undefined`; the hyphen and single branches
filter those out (`.filter(p => p)`), the default branch (`null` or the falsy
empty string) returns `[pages[0]]` unfiltered. -/
def parsePageSpec {α : Type} (pages : List α) (spec : Option String) :
    List (Option α) :=
  match spec with
  | none => [jsIndex pages 0]
  | some s =>
    if s = "" then [jsIndex pages 0]
    else if jsContainsChar s '-' then
      let nums := (jsSplit '-' s).map jsParseInt
      [(nums.get? 0).join.bind fun l => jsIndex pages (l - 1),
       (nums.get? 1).join.bind fun r => jsIndex pages (r - 1)].filter
        Option.isSome
    else
      [(jsParseInt s).bind fun n => jsIndex pages (n - 1)].filter Option.isSome

/-- Page tokens 1..11 for the eleven-page edition of Scenario A. -/
def elevenPages : List Nat := (List.range 11).map (fun i => i + 1)

/-- C8 counterexample: for `/facs/NK/` over an eleven-page edition the router
renders page 1 alone (`parsePageSpec` of a null spec yields the first page
only) and the previous control is disabled, but the next control targets page
spec `2`, not `2-3` as the claim states — page 1 is in single-page mode, so
`setupPageNavigation` computes next `P+1`. -/
theorem scenarioA_next_is_p2 :
    parsePageSpec elevenPages none = [some 1] ∧
    navSpecs [1] 11 = (none, some "2") ∧
    navSpecs [1] 11 ≠ (none, some "2-3") := by
  refine ⟨rfl, rfl, by decide⟩

/-- C8 amended: path `/facs/NK/` with an edition of 11 pages renders page 1
alone, the previous control is disabled, and the next control is enabled with
target page spec `2`. -/
theorem scenarioA_amended :
    parsePageSpec elevenPages none = [some 1] ∧
    navSpecs [1] 11 = (none, some "2") :=
  ⟨rfl, rfl⟩

/-! ### Writing-zones list rendering (`setupWritingZones`, lines 1186-1430) -/

/-- A zone position `{x, y, w, h}` in pixels relative to the page's crop
rectangle (`zone.wzProps.pos`); `none` at the use site models a missing
`wzProps`/`pos`. -/
structure ZonePos where
  x : ℚ
  y : ℚ
  w : ℚ
  h : ℚ
deriving DecidableEq, Repr

/-- A writing zone as consumed by `setupWritingZones`: its label, its
`identifier.zoneId`, and its optional position data. -/
structure WritingZone where
  label : String
  zoneId : String
  pos : Option ZonePos
deriving DecidableEq, Repr

/-- What `setupWritingZones` produces per zone: the list item's full label
text (always appended) and the optional position-preview box in page
percentages (`top`, `left`, `width`, `height`), `none` when the preview is
skipped with a console warning. -/
structure ZoneEntry where
  label : String
  preview : Option (ℚ × ℚ × ℚ × ℚ)
deriving DecidableEq, Repr

/-- The position-preview computation of `setupWritingZones` (lines
1304-1344), guard for guard: missing position data skips the preview; a crop
rectangle with `h < 100` or `w < 100` skips the preview before any division;
then the four percentages are computed and any value outside `[0, 100]`
skips the preview. -/
def zonePreviewBox (crop : Xywh) (zone : WritingZone) : Option (ℚ × ℚ × ℚ × ℚ) :=
  match zone.pos with
  | none => none
  | some pos =>
    if crop.h < 100 ∨ crop.w < 100 then none
    else
      let zoneTop := pos.y / crop.h * 100
      let zoneLeft := pos.x / crop.w * 100
      let zoneWidth := pos.w / crop.w * 100
      let zoneHeight := pos.h / crop.h * 100
      if zoneTop > 100 ∨ zoneLeft > 100 ∨ zoneWidth > 100 ∨ zoneHeight > 100 ∨
          zoneTop < 0 ∨ zoneLeft < 0 ∨ zoneWidth < 0 ∨ zoneHeight < 0 then
        none
      else
        some (zoneTop, zoneLeft, zoneWidth, zoneHeight)

/-- One list item of the zones list: the composite label
`"<sourceLabel> <pageIndex>/<label>"` (line 1260) plus the optional preview
box. -/
def renderZoneEntry (sourceLabel : String) (pageIndex : Int) (crop : Xywh)
    (zone : WritingZone) : ZoneEntry :=
  { label := sourceLabel ++ " " ++ toString pageIndex ++ "/" ++ zone.label,
    preview := zonePreviewBox crop zone }

/-- The numeric sort key of the zone sort (lines 1243-1247):
`parseInt(label) || 0`, i.e. `0` for a non-numeric label. -/
def labelNum (z : WritingZone) : Int :=
  (jsParseInt z.label).getD 0

/-- The stable numeric label sort `[...page.writingZones].sort(...)`. -/
def sortZones (zs : List WritingZone) : List WritingZone :=
  zs.mergeSort (fun a b => decide (labelNum a ≤ labelNum b))

/-- The zones list rendered for one page: sort by numeric label, then one
entry per zone. -/
def renderZones (sourceLabel : String) (pageIndex : Int) (crop : Xywh)
    (zs : List WritingZone) : List ZoneEntry :=
  (sortZones zs).map (renderZoneEntry sourceLabel pageIndex crop)

/-- C9: a zone with missing position data, or whose normalized percentages
fall outside [0, 100] (e.g. 140%), gets no position preview, but its label
entry still appears in the rendered list, every other zone is still
rendered (the list keeps one entry per zone), and the rendering is a total
function — no exception escapes. -/
theorem setupWritingZones_invalid_zone_skipped (sl : String) (pi : Int)
    (crop : Xywh) (zs : List WritingZone) (z : WritingZone) (hz : z ∈ zs)
    (hbad : z.pos = none ∨ ∃ p, z.pos = some p ∧
      (100 < p.y / crop.h * 100 ∨ 100 < p.x / crop.w * 100 ∨
       100 < p.w / crop.w * 100 ∨ 100 < p.h / crop.h * 100 ∨
       p.y / crop.h * 100 < 0 ∨ p.x / crop.w * 100 < 0 ∨
       p.w / crop.w * 100 < 0 ∨ p.h / crop.h * 100 < 0)) :
    (renderZoneEntry sl pi crop z).preview = none ∧
    (renderZoneEntry sl pi crop z).label
      = sl ++ " " ++ toString pi ++ "/" ++ z.label ∧
    renderZoneEntry sl pi crop z ∈ renderZones sl pi crop zs ∧
    (renderZones sl pi crop zs).length = zs.length := by
  have hperm := List.mergeSort_perm zs
    (fun a b => decide (labelNum a ≤ labelNum b))
  refine ⟨?_, rfl, ?_, ?_⟩
  · rcases hbad with hnone | ⟨p, hp, hout⟩
    · simp [renderZoneEntry, zonePreviewBox, hnone]
    · simp only [renderZoneEntry, zonePreviewBox, hp]
      by_cases hsmall : crop.h < 100 ∨ crop.w < 100
      · rw [if_pos hsmall]
      · rw [if_neg hsmall, if_pos hout]
  · exact List.mem_map_of_mem _ (hperm.mem_iff.mpr hz)
  · simp [renderZones, sortZones, hperm.length_eq]

/-- A 1000x1000 crop rectangle at the origin. -/
def crop1000 : Xywh := { x := 0, y := 0, w := 1000, h := 1000 }

/-- A zone whose normalized top percentage is 140%. -/
def badZone : WritingZone :=
  { label := "3", zoneId := "z3", pos := some { x := 0, y := 1400, w := 100, h := 100 } }

/-- A zone with a valid position. -/
def goodZone : WritingZone :=
  { label := "1", zoneId := "z1", pos := some { x := 10, y := 10, w := 100, h := 100 } }

/-- C9 witness: the theorem applied to the concrete zone whose normalized
top percentage is 140% inside a two-zone list. -/
theorem setupWritingZones_invalid_zone_skipped_witness :
    (renderZoneEntry "NK" 2 crop1000 badZone).preview = none ∧
    renderZoneEntry "NK" 2 crop1000 badZone
      ∈ renderZones "NK" 2 crop1000 [goodZone, badZone] ∧
    (renderZones "NK" 2 crop1000 [goodZone, badZone]).length = 2 := by
  have h := setupWritingZones_invalid_zone_skipped "NK" 2 crop1000
    [goodZone, badZone] badZone (by decide)
    (Or.inr ⟨{ x := 0, y := 1400, w := 100, h := 100 }, rfl, by norm_num [crop1000]⟩)
  exact ⟨h.1, h.2.2.1, h.2.2.2⟩

/-- C10: for a crop rectangle whose width or height is below the hardcoded
100-pixel sanity threshold, the zone's position preview is skipped entirely
while its label entry is still produced; and whenever a preview box is
produced at all, the crop dimensions are at least 100, so the percentage
computation never divides by a crop dimension smaller than 100. -/
theorem setupWritingZones_small_crop_guard (sl : String) (pi : Int)
    (crop : Xywh) (z : WritingZone) (hsmall : crop.w < 100 ∨ crop.h < 100) :
    (renderZoneEntry sl pi crop z).preview = none ∧
    (renderZoneEntry sl pi crop z).label
      = sl ++ " " ++ toString pi ++ "/" ++ z.label ∧
    ∀ (crop' : Xywh) (z' : WritingZone) (b : ℚ × ℚ × ℚ × ℚ),
      zonePreviewBox crop' z' = some b → 100 ≤ crop'.w ∧ 100 ≤ crop'.h := by
  refine ⟨?_, rfl, fun crop' z' b hb => ?_⟩
  · rcases hpos : z.pos with _ | p
    · simp [renderZoneEntry, zonePreviewBox, hpos]
    · simp only [renderZoneEntry, zonePreviewBox, hpos]
      rw [if_pos (hsmall.elim Or.inr Or.inl)]
  · rcases hpos : z'.pos with _ | p
    · simp [zonePreviewBox, hpos] at hb
    · simp only [zonePreviewBox, hpos] at hb
      by_cases hg : crop'.h < 100 ∨ crop'.w < 100
      · rw [if_pos hg] at hb
        cases hb
      · push_neg at hg
        exact ⟨hg.2, hg.1⟩

/-- A crop rectangle below the 100-pixel sanity threshold in width. -/
def smallCrop : Xywh := { x := 0, y := 0, w := 50, h := 200 }

/-- C10 witness: the theorem applied to the concrete undersized crop. -/
theorem setupWritingZones_small_crop_guard_witness :
    (renderZoneEntry "NK" 2 smallCrop goodZone).preview = none :=
  (setupWritingZones_small_crop_guard "NK" 2 smallCrop goodZone
    (Or.inl (by norm_num [smallCrop]))).1

end VideFacs
